import Mathlib

/-!
Verification model of the pyLights Insteon PLM controller
(`script.module.pylights/lib/pylights.py`).  The serial receive loop,
frame routing, command construction, link-table reading, listener
dispatch and the event scheduler are embedded as executable Lean
definitions.  Machine bytes are modelled as `Nat`, Python lists as
`List Nat`, and Python values that can be either a string or a byte
list as `PyVal`.  Background-thread effects that a function only
observes (the receive queue contents, the receiver thread's reset)
are passed as explicit parameters.
-/

/-- Python value that is either a string, an integer or a list of bytes. -/
inductive PyVal
  | str (s : String)
  | int (n : ℤ)
  | lst (l : List ℕ)
deriving DecidableEq

/-- A `SerialPacket` as placed on the send queue by `plm.send_msg` and
friends: the transmitted message bytes (or `None`) and an expected
receive length (or `None`). -/
structure SerialPacketM where
  msg : Option (List ℕ)
  recvLen : Option ℕ
deriving DecidableEq

/-- State of the local variable `sp` in `SerialRxThread.run`: either never
assigned (or deleted by `del(sp)`), or bound to the last packet taken from
the send queue.  Referencing it while unbound raises `UnboundLocalError` in
the Python source, which the routing code catches. -/
inductive SpSlot
  | unbound
  | bound (msg : Option (List ℕ))
deriving DecidableEq

/-- State of the serial receive loop `SerialRxThread.run`, together with the
observable outputs it produces: the two delivery queues, the logged stray
bytes, and the list of completed frames (`frames` is an observation trace;
in the source a frame is complete exactly when it is routed). -/
structure RxState where
  data : List ℕ
  expectedLen : ℕ
  firstTimeout : Bool
  sp : SpSlot
  sendQ : List SerialPacketM
  recvQ : List (List ℕ)
  asyncQ : List (List ℕ)
  extraFlag : Bool
  extraBytes : List ℕ
  extraLogs : List (List ℕ)
  frames : List (List ℕ)
deriving DecidableEq

/-- The `SerialRxThread.response_len` dictionary: expected total frame
length for each supported type byte; `none` models a `KeyError` (the
source logs it and keeps the previous expected length). -/
def response_len (t : ℕ) : Option ℕ :=
  if t = 0x50 then some 11
  else if t = 0x51 then some 25
  else if t = 0x52 then some 4
  else if t = 0x54 then some 3
  else if t = 0x53 then some 10
  else if t = 0x57 then some 10
  else if t = 0x60 then some 9
  else if t = 0x62 then some 9
  else if t = 0x63 then some 5
  else if t = 0x69 then some 3
  else if t = 0x6A then some 3
  else none

/-- Frame-completion routing in `SerialRxThread.run`.  Types 0x50/0x51
compare `sp.msg[2:5]` against `data[2:5]`; with `sp` unbound this raises
`UnboundLocalError` (caught, frame goes to the async queue), and with
`sp.msg = None` it raises `TypeError` (caught, async queue, `sp` stays
bound because `del(sp)` is never reached).  For every other type the
frame is first put on `recv_q`; the following `del(sp)` then raises when
`sp` is unbound, and the handler puts the same frame on `async_q` as
well.  After routing the buffer is cleared. -/
def route (st : RxState) : RxState :=
  let d := st.data
  let st1 :=
    if d.get? 1 = some 0x50 ∨ d.get? 1 = some 0x51 then
      match st.sp with
      | SpSlot.bound (some m) =>
        if (m.drop 2).take 3 = (d.drop 2).take 3 then
          { st with recvQ := st.recvQ ++ [d], sp := SpSlot.unbound }
        else
          { st with asyncQ := st.asyncQ ++ [d], sp := SpSlot.unbound }
      | SpSlot.bound none => { st with asyncQ := st.asyncQ ++ [d] }
      | SpSlot.unbound => { st with asyncQ := st.asyncQ ++ [d] }
    else
      match st.sp with
      | SpSlot.unbound => { st with recvQ := st.recvQ ++ [d], asyncQ := st.asyncQ ++ [d] }
      | SpSlot.bound _ => { st with recvQ := st.recvQ ++ [d], sp := SpSlot.unbound }
  { st1 with data := [], frames := st1.frames ++ [d] }

/-- Handling of a 0x02 byte at buffer position 0: flush the stray-byte log,
then pull the next send-queue packet into `sp`, adopting its expected
receive length when present. -/
def stepStart (st : RxState) : RxState :=
  let stf :=
    if st.extraFlag then
      { st with extraFlag := false, extraLogs := st.extraLogs ++ [st.extraBytes],
                extraBytes := [] }
    else st
  match stf.sendQ with
  | [] => stf
  | p :: rest =>
    let stg := { stf with sp := SpSlot.bound p.msg, sendQ := rest }
    match p.recvLen with
    | some l => { stg with expectedLen := l }
    | none => stg

/-- The length-dependent branches of the receive loop, run after the new
byte has been appended: position 6 of a 0x62 frame selects the short or
long length from the flags bit 0x10; position 2 looks the type byte up in
`response_len`; position 1 either starts a frame (0x02) or records a stray
byte and clears the buffer. -/
def stepLen (st : RxState) (b : ℕ) : RxState :=
  if st.data.length = 6 ∧ st.data.get? 1 = some 0x62 then
    { st with expectedLen := if ((st.data.get? 5).getD 0) &&& 0x10 ≠ 0 then 23 else 9 }
  else if st.data.length = 2 then
    match response_len ((st.data.get? 1).getD 0) with
    | some l => { st with expectedLen := l }
    | none => st
  else if st.data.length = 1 then
    if b = 0x02 then stepStart st
    else { st with extraFlag := true, extraBytes := st.extraBytes ++ [b], data := [] }
  else st

/-- One received byte of `SerialRxThread.run`: append, run the
length-dependent branches, and route the frame once the buffer has reached
the expected length. -/
def step (st0 : RxState) (b : ℕ) : RxState :=
  let st1 := stepLen { st0 with firstTimeout := false, data := st0.data ++ [b] } b
  if st1.expectedLen ≤ st1.data.length then route st1 else st1

/-- Run the receive loop over a list of incoming bytes. -/
def runBytes : RxState → List ℕ → RxState
  | st, [] => st
  | st, b :: bs => runBytes (step st b) bs

/-- Initial state of the receive loop (`data = []`, `expected_len = 11`,
`first_timeout = True`, no packet bound, all queues empty). -/
def initState : RxState :=
  { data := [], expectedLen := 11, firstTimeout := true, sp := SpSlot.unbound,
    sendQ := [], recvQ := [], asyncQ := [], extraFlag := false, extraBytes := [],
    extraLogs := [], frames := [] }

/-- Whether the receiver thread's reset has become visible to `send_msg`
after `t` completed sleep intervals of the echo-mismatch polling loop.
`k = some j` means the reset becomes visible after `j` sleeps; `k = none`
means the receiver thread performs no reset while `send_msg` polls. -/
def rxVisible (k : Option ℕ) (t : ℕ) : Bool :=
  match k with
  | some j => decide (j ≤ t)
  | none => false

/-- The polling loop of `plm.send_msg` after an echo mismatch: it sleeps
and counts `tries` while the receiver thread has not reset and fewer than
50 tries have elapsed.  Returns the final value of `tries`; the fuel is
called with 51 which always suffices. -/
def pollTries (k : Option ℕ) : ℕ → ℕ → ℕ
  | 0, t => t
  | fuel + 1, t =>
    if rxVisible k t || decide (50 ≤ t) then t
    else pollTries k fuel (t + 1)

/-- Number of reset-counter increments that happen during a `send_msg`
echo-mismatch episode: one from the receiver thread when its reset became
visible while polling, plus one from `send_msg` itself when the loop hit
50 tries. -/
def echoMismatchResets (k : Option ℕ) : ℕ :=
  let tf := pollTries k 51 0
  (if rxVisible k tf then 1 else 0) + (if tf = 50 then 1 else 0)

/-- `plm.send_msg`: the synchronous transmit path.  `echo` is the frame
the receive loop delivered within the 1-second echo window (`none` for a
timeout), `k` the receiver-reset visibility oracle of the mismatch polling
loop, and `respM` the frame delivered within the 8-second deferred-response
window.  Returns the Python return value and the updated reset counter
(send-queue bookkeeping does not affect either and is kept in the receive
loop model). -/
def send_msg (portOpen : Bool) (message : List ℕ) (resp_len : ℕ) (no_echo : Bool)
    (echo : Option (List ℕ)) (k : Option ℕ) (respM : Option (List ℕ))
    (resets : ℕ) : PyVal × ℕ :=
  if ¬ portOpen then (PyVal.str ("Serial port is not open"), resets)
  else
    match echo with
    | none => (PyVal.str ("Timeout waiting for echo"), resets + 1)
    | some e =>
      if no_echo then (PyVal.lst e, resets)
      else if e.take message.length ≠ message then
        (PyVal.str ("Invalid echo"), resets + echoMismatchResets k)
      else if e.length ≠ message.length + 1 then
        (PyVal.str ("Invalid message length"), resets)
      else if resp_len = 0 then (PyVal.lst e, resets)
      else if e.getLast? ≠ some 6 then
        if e.getLast? = some 0x15 then (PyVal.str ("NACK"), resets)
        else (PyVal.str ("No ACK received!"), resets + 1)
      else
        match respM with
        | none => (PyVal.str ("Timeout waiting for response"), resets + 1)
        | some r => (PyVal.lst r, resets)

/-- The expected-response-length computation of `plm.sendStdMessage`:
0 when any broadcast flag bit (0xC0) is set, else 22 for the
identification request (`idReq = 0x10`), else 11. -/
def stdResponseLen (cmd1 flags : ℕ) : ℕ :=
  if flags &&& 0xC0 ≠ 0 then 0
  else if cmd1 = 0x10 then 22
  else 11

/-- `plm.sendStdMessage` for a list-form address: the transmitted message
bytes (`[0x02, insteonSend] + address + [flags & 0xEF, cmd1, cmd2]`) and
the expected response length handed to `send_msg`. -/
def sendStdMessage (address : List ℕ) (cmd1 cmd2 flags : ℕ) : List ℕ × ℕ :=
  ([0x02, 0x62] ++ address ++ [flags &&& 0xEF, cmd1, cmd2], stdResponseLen cmd1 flags)

/-- Round-half-to-even of `a / b` as an integer quotient (used when CPython
rounds a real value to a 53-bit significand). -/
def rheDiv (a b : ℕ) : ℕ :=
  let q := a / b
  let r := a % b
  if 2 * r < b then q
  else if b < 2 * r then q + 1
  else if q % 2 = 0 then q else q + 1

/-- Floor of the base-2 logarithm for the value range used here
(1 ≤ n < 2^63); returns 0 below 1. -/
def floorLog2 (n : ℕ) : ℕ :=
  ((List.range 64).filter (fun k => 2 ^ k ≤ n)).length - 1

/-- A nonnegative IEEE-754 double represented exactly as
`num / 2 ^ scale`. -/
structure Dbl where
  num : ℕ
  scale : ℕ
deriving DecidableEq

/-- The double nearest to the decimal literal `a / b` (CPython parses float
literals with round-half-to-even at 53 significant bits; values used here
lie in [1, 2^63), subnormals and huge exponents are out of range). -/
def dblOfRatio (a b : ℕ) : Dbl :=
  let e := floorLog2 (a / b)
  if e ≤ 52 then ⟨rheDiv (a * 2 ^ (52 - e)) b, 52 - e⟩
  else ⟨rheDiv a (b * 2 ^ (e - 52)), 0⟩

/-- Product of a double with a Python int, rounded back to a double
(round-half-to-even at 53 bits), for results in [0, 2^63). -/
def dblMulNat (d : Dbl) (k : ℕ) : Dbl :=
  let p := d.num * k
  let e := floorLog2 (p / 2 ^ d.scale)
  let t := 52 - e
  if e ≤ 52 then
    if d.scale ≤ t then ⟨p * 2 ^ (t - d.scale), t⟩
    else ⟨rheDiv p (2 ^ (d.scale - t)), t⟩
  else ⟨p, d.scale⟩

/-- Python 2 `int(round(x))` for a nonnegative double: round half away
from zero, i.e. `floor(x + 1/2)` (exact at the values reached here). -/
def pyRoundDbl (d : Dbl) : ℕ :=
  (2 * d.num + 2 ^ d.scale) / 2 ^ (d.scale + 1)

/-- The percent-to-direct conversion of `plm.setLevel`:
`int(round(2.55 * level))` computed in IEEE-754 double arithmetic exactly
as CPython does. -/
def levelOfPercent (pct : ℕ) : ℕ :=
  pyRoundDbl (dblMulNat (dblOfRatio 51 20) pct)

/-- The send-and-check tail of `plm.setLevel`: chooses OFF (0x13) for level
0 and ON (0x11) otherwise, and inspects the transaction result `tx` (the
value `sendStdMessage` returned).  Returns the Python return value, the
`(cmd1, cmd2)` pair handed to `sendStdMessage`, and the level written to
the device registry (`None` when no write happens).  A string result has
no last byte equal to an int, so the success check fails on it; the last
byte of an empty list is unreachable on the modelled paths. -/
def setLevelSend (lvl : ℕ) (update : Bool) (tx : PyVal) :
    PyVal × Option (ℕ × ℕ) × Option ℕ :=
  let cmd := if lvl = 0 then 0x13 else 0x11
  match tx with
  | PyVal.lst l =>
    if l.getLast? = some lvl then
      (PyVal.str ("OK"), some (cmd, lvl), if update then some lvl else none)
    else (PyVal.lst l, some (cmd, lvl), none)
  | other => (other, some (cmd, lvl), none)

/-- `plm.setLevel`: validates the level, converts percent levels through
`levelOfPercent`, then runs `setLevelSend` on the transaction result. -/
def setLevel (level : ℕ) (usePercent update : Bool) (tx : PyVal) :
    PyVal × Option (ℕ × ℕ) × Option ℕ :=
  if usePercent then
    if level ≤ 100 then setLevelSend (levelOfPercent level) update tx
    else (PyVal.str ("Percent level must be 0-100"), none, none)
  else
    if level ≤ 255 then setLevelSend level update tx
    else (PyVal.str ("Direct level must be 0-255"), none, none)

/-- The 8-byte link record embedded in an extended frame: bytes 16..23
(`d.msg[16:24]` in the source). -/
def linkSlice (d : List ℕ) : List ℕ := (d.drop 16).take 8

/-- The 14-byte extended-message payload `plm.getLinkTable` sends: all
zeroes for a bulk read, or the record offset `0x0FFF - record * 8` split
into high and low bytes plus a one-record count. -/
def getLinkTableRequest (rec : Option ℕ) : List ℕ :=
  match rec with
  | none => List.replicate 14 0
  | some r =>
    let a := 0x0FFF - r * 8
    [0, 0, (a &&& 0xFF00) >>> 8, a &&& 0xFF, 1, 0, 0, 0, 0, 0, 0, 0, 0, 0]

/-- The receive loop of `plm.getLinkTable`.  `frames` is the stream of
frames the receive queue delivers (an empty stream models the 8-second
timeout), `prev` the previous value of the loop variable `d` (on a timeout
the source re-examines this stale frame, since `done = True` does not skip
the body; on the first iteration `d` is unbound and the `UnboundLocalError`
is caught).  `single` is `record is not None`.  `none` models an uncaught
`IndexError` on a frame shorter than 17 bytes. -/
def linkLoop : Bool → List (List ℕ) → Option (List ℕ) → Option (List (List ℕ))
  | _, [], none => some []
  | _, [], some d =>
    match d.get? 16 with
    | none => none
    | some 0 => some []
    | some (_ + 1) => some [linkSlice d]
  | single, d :: rest, _ =>
    match d.get? 16 with
    | none => none
    | some 0 => some []
    | some (_ + 1) =>
      if single then some [linkSlice d]
      else (linkLoop false rest (some d)).map (fun ls => linkSlice d :: ls)

/-- `plm.getLinkTable` on a delivered frame stream: run the receive loop
from its start (no stale frame, `single` exactly when a record index was
requested). -/
def getLinkTable (rec : Option ℕ) (frames : List (List ℕ)) :
    Option (List (List ℕ)) :=
  linkLoop rec.isSome frames none

/-- Event type stored in `LightingEvent.type`. -/
inductive EvType
  | interval
  | daily
  | trigger
deriving DecidableEq

/-- The `events_remaining` field: Python `None`, an int, or the strings
`'inf'`/`'Inf'` (any non-int compares unequal to 0 and is never
decremented). -/
inductive Remaining
  | noneMark
  | num (n : ℤ)
  | infMark
deriving DecidableEq

/-- The `LightingEvent` object (fields used by the scheduler and the
listener dispatch). -/
structure LEvent where
  etype : EvType
  interval : ℤ
  remaining : Remaining
  action : Option PyVal
  from_address : Option (List ℕ)
  from_button : Option ℕ
  from_cmd : Option ℕ
  to_address : Option (List ℕ)
  to_button : Option ℕ
  level : Option ℤ
deriving DecidableEq

/-- `LightingEvent.__init__`: a fresh event of the given type and interval
with every other field `None`. -/
def mkLightingEvent (ty : EvType) (ivl : ℤ) : LEvent :=
  { etype := ty, interval := ivl, remaining := Remaining.noneMark, action := none,
    from_address := none, from_button := none, from_cmd := none,
    to_address := none, to_button := none, level := none }

/-- The per-callback dispatch of `AsyncEventThread.run` for a non-X10
frame of at least 11 bytes: an unregistered filter (`event is None`) runs
the callback for every frame; a filter checks source address, command and
button (each `None` matches anything) and finally requires the flags upper
nibble to equal the group-cleanup category 0xC0. -/
def callbackFires (filter : Option LEvent) (data : List ℕ) : Bool :=
  match filter with
  | none => true
  | some ev =>
    let from_addr := (data.drop 2).take 3
    let btn := (data.get? 7).getD 0
    let flags := (data.get? 8).getD 0
    let cmd1 := (data.get? 9).getD 0
    (match ev.from_address with | none => true | some a => a == from_addr) &&
    (match ev.from_cmd with | none => true | some c => c == cmd1) &&
    (match ev.from_button with | none => true | some b => b == btn) &&
    (flags &&& 0xF0 == 0xC0)

/-- Observable actions of one `plm.timer_handler` call, in program order. -/
inductive TimerOp
  | arm (expiry : ℤ)
  | invoke
deriving DecidableEq

/-- `event.events_remaining -= 1`, applied only when the field holds an
int. -/
def decRemaining : Remaining → Remaining
  | Remaining.num n => Remaining.num (n - 1)
  | r => r

/-- `plm.timer_handler` fired at absolute time `now`: for interval/daily
events it decrements the remaining count, re-arms unless the count reached
0 (a daily event switches its interval to 24 hours first, so the new timer
expires 86400 seconds after this firing), and only then invokes the
action.  A trigger event arms a one-shot timer that runs `action_handler`
after the extra delay (no `timer_handler` re-entry, hence no rearmed
event here).  Returns the ordered actions and the rearmed timer. -/
def timer_handler (now : ℤ) (ev : LEvent) : List TimerOp × Option (ℤ × LEvent) :=
  match ev.etype with
  | EvType.trigger => ([TimerOp.arm (now + ev.interval)], none)
  | _ =>
    let rem := decRemaining ev.remaining
    if rem ≠ Remaining.num 0 then
      let ivl := if ev.etype = EvType.daily then 3600 * 24 else ev.interval
      let ev2 := { ev with remaining := rem, interval := ivl }
      ([TimerOp.arm (now + ivl), TimerOp.invoke], some (now + ivl, ev2))
    else ([TimerOp.invoke], none)

/-- Absolute times at which the timer chain starting from one armed
`timer_handler` timer invokes its action; `fuel` bounds the number of
firings examined. -/
def fireTimes : ℕ → Option (ℤ × LEvent) → List ℤ
  | _, none => []
  | 0, some _ => []
  | fuel + 1, some te =>
    let r := timer_handler te.1 te.2
    (if TimerOp.invoke ∈ r.1 then [te.1] else []) ++ fireTimes fuel r.2

/-- `plm.addIntervalEvent`: validates the action and the interval, builds
the interval event and arms its first timer.  Returns the Python return
string and the armed `(delay, event)` pair. -/
def addIntervalEvent (ivl : ℤ) (action : PyVal) (address : List ℕ)
    (num_events : Remaining) : String × Option (ℤ × LEvent) :=
  let okAction : Bool :=
    match action with
    | PyVal.str s => s == ("toggle") || s == ("update") || s == ("update_all")
    | PyVal.int n => decide (0 ≤ n) && decide (n < 256)
    | _ => false
  if ¬ okAction then (("Invalid action"), none)
  else if ivl ≤ 0 then (("Invalid interval"), none)
  else
    let ev0 := { mkLightingEvent EvType.interval ivl with remaining := num_events }
    let ev1 :=
      match action with
      | PyVal.int n => { ev0 with action := some (PyVal.str ("on")), level := some n }
      | a => { ev0 with action := some a }
    (("OK"), some (ivl, { ev1 with to_address := some address }))

/-- The `action_time` argument of `plm.addDailyEvent`: the literal strings
`'sunrise'`/`'sunset'`, or a well-formed `'HH:MM:SS'` string. -/
inductive ActionTime
  | sunrise
  | sunset
  | hms (h m s : ℕ)
deriving DecidableEq

/-- The daily event built by `plm.addDailyEvent` (`events_remaining` is
the string `'Inf'`). -/
def dailyEventOfAction (action : PyVal) (address : List ℕ) (ivl : ℤ) : LEvent :=
  let ev0 := { mkLightingEvent EvType.daily ivl with remaining := Remaining.infMark }
  let ev1 :=
    match action with
    | PyVal.int n => { ev0 with action := some (PyVal.str ("on")), level := some n }
    | a => { ev0 with action := some a }
  { ev1 with to_address := some address }

/-- The time-computation tail of `plm.addDailyEvent`.  In the source only
the `'HH:MM:SS'` branch assigns the local variable `interval`; the
`'sunrise'`/`'sunset'` branches assign `seconds = 4` (a placeholder) and
fall through to `LightingEvent('daily', interval)`, raising
`UnboundLocalError`.  `Except.error` models that uncaught exception. -/
def addDailyEventTime (action_time : ActionTime) (now_sec : ℤ) (address : List ℕ)
    (action : PyVal) : Except String (String × Option (ℤ × LEvent)) :=
  match action_time with
  | ActionTime.sunrise => Except.error ("UnboundLocalError: interval")
  | ActionTime.sunset => Except.error ("UnboundLocalError: interval")
  | ActionTime.hms h m s =>
    let seconds : ℤ := 3600 * h + 60 * m + s
    let ivl0 := seconds - now_sec
    let ivl := if ivl0 < 0 then ivl0 + 3600 * 24 else ivl0
    Except.ok (("OK"), some (ivl, dailyEventOfAction action address ivl))

/-- `plm.addDailyEvent`: validates the action (an int must be a level in
0..255, otherwise only `'toggle'` is accepted), then computes the first
interval and arms the daily event. -/
def addDailyEvent (action_time : ActionTime) (now_sec : ℤ) (address : List ℕ)
    (action : PyVal) : Except String (String × Option (ℤ × LEvent)) :=
  match action with
  | PyVal.int n =>
    if ¬ (0 ≤ n ∧ n < 256) then Except.ok (("Invalid level"), none)
    else addDailyEventTime action_time now_sec address action
  | PyVal.str s =>
    if s ≠ ("toggle") then Except.ok (("Invalid action"), none)
    else addDailyEventTime action_time now_sec address action
  | _ => Except.ok (("Invalid action"), none)

theorem stepLen_inert (st : RxState) (b : ℕ) (h3 : 3 ≤ st.data.length)
    (h6 : ¬(st.data.length = 6 ∧ st.data.get? 1 = some 0x62)) : stepLen st b = st := by
  unfold stepLen
  rw [if_neg h6, if_neg (by omega), if_neg (by omega)]

theorem runBytes_append (st : RxState) (xs ys : List ℕ) :
    runBytes st (xs ++ ys) = runBytes (runBytes st xs) ys := by
  induction xs generalizing st with
  | nil => rfl
  | cons b bs ih =>
    simp only [List.cons_append, runBytes]
    exact ih (step st b)

set_option maxHeartbeats 1000000 in
theorem response_len_ge3 (t L : ℕ) (h : response_len t = some L) : 3 ≤ L := by
  unfold response_len at h
  split_ifs at h <;>
    first
      | (injection h with hh; omega)
      | exact Option.noConfusion h

theorem runBytes_fill (t : ℕ) (bs : List ℕ) : ∀ (st : RxState),
    st.data.get? 1 = some t →
    2 ≤ st.data.length →
    (t = 0x62 → 6 ≤ st.data.length) →
    st.data.length + bs.length = st.expectedLen →
    st.data.length < st.expectedLen →
    runBytes st bs = route { st with data := st.data ++ bs, firstTimeout := false } := by
  induction bs with
  | nil =>
    intro st h1 h2 h3 h4 h5
    exfalso
    simp at h4
    omega
  | cons b rest ih =>
    intro st h1 h2 h3 h4 h5
    have hget : (st.data ++ [b]).get? 1 = some t := by
      rw [List.get?_append (by omega)]
      exact h1
    have hA : stepLen { st with firstTimeout := false, data := st.data ++ [b] } b
        = { st with firstTimeout := false, data := st.data ++ [b] } := by
      apply stepLen_inert
      · simp
        omega
      · simp only [not_and]
        intro hl
        simp only [hget, Option.some.injEq]
        intro ht
        have h7 := h3 ht
        simp at hl
        omega
    have hstep : step st b = if st.expectedLen ≤ st.data.length + 1
        then route { st with firstTimeout := false, data := st.data ++ [b] }
        else { st with firstTimeout := false, data := st.data ++ [b] } := by
      simp only [step, hA]
      simp
    cases rest with
    | nil =>
      have hcomp : st.expectedLen ≤ st.data.length + 1 := by
        simp at h4
        omega
      have e1 : runBytes st [b] = step st b := rfl
      rw [e1, hstep, if_pos hcomp]
    | cons r rs =>
      have hcomp : ¬ st.expectedLen ≤ st.data.length + 1 := by
        simp at h4
        omega
      have e1 : runBytes st (b :: r :: rs) = runBytes (step st b) (r :: rs) := rfl
      rw [e1, hstep, if_neg hcomp]
      have hres := ih { st with firstTimeout := false, data := st.data ++ [b] }
          hget (by simp; omega) (fun ht => by have h7 := h3 ht; simp; omega)
          (by simp at h4 ⊢; omega) (by simp; omega)
      rw [hres]
      have hdd : (st.data ++ [b]) ++ (r :: rs) = st.data ++ b :: r :: rs := by simp
      rw [hdd]

theorem runBytes_strays (bs : List ℕ) : ∀ (st : RxState),
    (∀ b ∈ bs, b ≠ 2) → st.data = [] → 1 ≤ st.expectedLen →
    runBytes st bs =
      if bs.isEmpty then st
      else { st with firstTimeout := false, data := [], extraFlag := true,
                     extraBytes := st.extraBytes ++ bs } := by
  induction bs with
  | nil =>
    intro st h hd he
    rfl
  | cons b rest ih =>
    intro st h hd he
    have hb : b ≠ 2 := h b (List.mem_cons_self b rest)
    have he0 : st.expectedLen ≠ 0 := by omega
    have hstep : step st b =
        { st with firstTimeout := false, data := [], extraFlag := true,
                  extraBytes := st.extraBytes ++ [b] } := by
      unfold step stepLen
      rw [hd]
      simp [hb, he0]
    have e1 : runBytes st (b :: rest) = runBytes (step st b) rest := rfl
    rw [e1, hstep,
        ih { st with firstTimeout := false, data := [], extraFlag := true,
                     extraBytes := st.extraBytes ++ [b] }
          (fun x hx => h x (List.mem_cons_of_mem b hx)) rfl he]
    cases rest with
    | nil => simp
    | cons r rs => simp

theorem route_frames (st : RxState) : (route st).frames = st.frames ++ [st.data] := by
  cases h : st.sp with
  | unbound => simp only [route, h] <;> split <;> first | rfl | (split <;> rfl)
  | bound m => cases m <;> simp only [route, h] <;> split <;> first | rfl | (split <;> rfl)

theorem route_extraLogs (st : RxState) : (route st).extraLogs = st.extraLogs := by
  cases h : st.sp with
  | unbound => simp only [route, h] <;> split <;> first | rfl | (split <;> rfl)
  | bound m => cases m <;> simp only [route, h] <;> split <;> first | rfl | (split <;> rfl)

theorem route_data (st : RxState) : (route st).data = [] := by
  cases h : st.sp with
  | unbound => simp only [route, h] <;> split <;> first | rfl | (split <;> rfl)
  | bound m => cases m <;> simp only [route, h] <;> split <;> first | rfl | (split <;> rfl)

theorem runBytes_after_start (st : RxState) (t L0 L : ℕ) (body : List ℕ)
    (hd : st.data = [2])
    (hsupp : response_len t = some L0)
    (hL : L = if t = 0x62 then (if (body.get? 3).getD 0 &&& 0x10 ≠ 0 then 23 else 9) else L0)
    (hlen : body.length + 2 = L) :
    runBytes st (t :: body) =
      route { st with data := 2 :: t :: body, expectedLen := L, firstTimeout := false } := by
  have h3 := response_len_ge3 t L0 hsupp
  have hstep1 : step st t =
      { st with firstTimeout := false, data := [2, t], expectedLen := L0 } := by
    have hg : ¬ (L0 ≤ 2) := by omega
    unfold step stepLen
    rw [hd]
    simp [hsupp, hg]
  by_cases ht : t = 0x62
  · subst ht
    have hL0 : L0 = 9 := by
      have h62 : response_len 0x62 = some 9 := rfl
      rw [h62] at hsupp
      injection hsupp with hh
      omega
    subst hL0
    rw [if_pos rfl] at hL
    have hL9 : 9 ≤ L := by
      rw [hL]
      split <;> omega
    rcases body with _ | ⟨b0, body⟩
    · exfalso; simp at hlen; omega
    rcases body with _ | ⟨b1, body⟩
    · exfalso; simp at hlen; omega
    rcases body with _ | ⟨b2, body⟩
    · exfalso; simp at hlen; omega
    rcases body with _ | ⟨b3, rest⟩
    · exfalso; simp at hlen; omega
    simp only [List.get?_cons_succ, List.get?_cons_zero, Option.getD_some] at hL
    by_cases hbit : b3 &&& 0x10 = 0
    · rw [if_neg (not_not_intro hbit)] at hL
      subst hL
      have hs2 : step { st with firstTimeout := false, data := [2, 0x62], expectedLen := 9 } b0
          = { st with firstTimeout := false, data := [2, 0x62, b0], expectedLen := 9 } := by
        unfold step stepLen
        simp
      have hs3 : step { st with firstTimeout := false, data := [2, 0x62, b0], expectedLen := 9 } b1
          = { st with firstTimeout := false, data := [2, 0x62, b0, b1], expectedLen := 9 } := by
        unfold step stepLen
        simp
      have hs4 : step { st with firstTimeout := false, data := [2, 0x62, b0, b1], expectedLen := 9 } b2
          = { st with firstTimeout := false, data := [2, 0x62, b0, b1, b2], expectedLen := 9 } := by
        unfold step stepLen
        simp
      have hs5 : step { st with firstTimeout := false, data := [2, 0x62, b0, b1, b2], expectedLen := 9 } b3
          = { st with firstTimeout := false, data := [2, 0x62, b0, b1, b2, b3], expectedLen := 9 } := by
        unfold step stepLen
        simp [hbit]
      simp only [runBytes]
      rw [hstep1, hs2, hs3, hs4, hs5,
          runBytes_fill 0x62 rest
            { st with firstTimeout := false, data := [2, 0x62, b0, b1, b2, b3], expectedLen := 9 }
            (by rfl) (by simp) (fun _ => by simp) (by simp at hlen ⊢; omega) (by simp)]
      simp
    · rw [if_pos hbit] at hL
      subst hL
      have hs2 : step { st with firstTimeout := false, data := [2, 0x62], expectedLen := 9 } b0
          = { st with firstTimeout := false, data := [2, 0x62, b0], expectedLen := 9 } := by
        unfold step stepLen
        simp
      have hs3 : step { st with firstTimeout := false, data := [2, 0x62, b0], expectedLen := 9 } b1
          = { st with firstTimeout := false, data := [2, 0x62, b0, b1], expectedLen := 9 } := by
        unfold step stepLen
        simp
      have hs4 : step { st with firstTimeout := false, data := [2, 0x62, b0, b1], expectedLen := 9 } b2
          = { st with firstTimeout := false, data := [2, 0x62, b0, b1, b2], expectedLen := 9 } := by
        unfold step stepLen
        simp
      have hs5 : step { st with firstTimeout := false, data := [2, 0x62, b0, b1, b2], expectedLen := 9 } b3
          = { st with firstTimeout := false, data := [2, 0x62, b0, b1, b2, b3], expectedLen := 23 } := by
        unfold step stepLen
        simp [hbit]
      simp only [runBytes]
      rw [hstep1, hs2, hs3, hs4, hs5,
          runBytes_fill 0x62 rest
            { st with firstTimeout := false, data := [2, 0x62, b0, b1, b2, b3], expectedLen := 23 }
            (by rfl) (by simp) (fun _ => by simp) (by simp at hlen ⊢; omega) (by simp)]
      simp
  · rw [if_neg ht] at hL
    subst hL
    have e0 : runBytes st (t :: body) = runBytes (step st t) body := rfl
    rw [e0, hstep1,
        runBytes_fill t body { st with firstTimeout := false, data := [2, t], expectedLen := L }
          (by rfl) (by simp) (fun hh => absurd hh ht) (by simp at hlen ⊢; omega) (by simp; omega)]
    simp

/-- Direct-type receive frame used to exercise the router. -/
def dC1 : List ℕ := [2, 0x50, 9, 9, 9, 0, 0, 0, 0x20, 0x11, 255]

/-- Transmitted standard message whose embedded address is `[9, 9, 9]`. -/
def mC1 : List ℕ := [2, 0x62, 9, 9, 9, 15, 0x11, 0]

/-- Router state holding a completed direct frame with a matching pending
request bound. -/
def stC1 : RxState := { initState with data := dC1, sp := SpSlot.bound (some mC1) }

/-- Non-direct frame (PLM info response, type 0x60). -/
def dC2 : List ℕ := [2, 0x60, 0, 0, 0, 0, 0, 0, 0]

/-- Router state holding a completed non-direct frame while a pending
request is bound. -/
def stC2 : RxState := { initState with data := dC2, sp := SpSlot.bound (some mC1) }

/-- C1: for every completed frame whose type byte is 0x50 or 0x51, when a
pending request with transmitted bytes `m` is outstanding the frame goes to
the answer queue exactly when its embedded address bytes (offsets 2..4)
equal the request's `m[2:5]`; on a mismatch, or with no pending request
bound, it goes to the async event queue. -/
theorem C1_direct_frame_routing (st : RxState) (t : ℕ)
    (ht : st.data.get? 1 = some t) (hdir : t = 0x50 ∨ t = 0x51) :
    (∀ m, st.sp = SpSlot.bound (some m) →
      ((m.drop 2).take 3 = (st.data.drop 2).take 3 →
        (route st).recvQ = st.recvQ ++ [st.data] ∧ (route st).asyncQ = st.asyncQ) ∧
      (¬ (m.drop 2).take 3 = (st.data.drop 2).take 3 →
        (route st).asyncQ = st.asyncQ ++ [st.data] ∧ (route st).recvQ = st.recvQ)) ∧
    (st.sp = SpSlot.unbound →
      (route st).asyncQ = st.asyncQ ++ [st.data] ∧ (route st).recvQ = st.recvQ) := by
  have hcond : st.data.get? 1 = some 0x50 ∨ st.data.get? 1 = some 0x51 := by
    rcases hdir with rfl | rfl
    · exact Or.inl ht
    · exact Or.inr ht
  refine ⟨fun m hm => ⟨fun heq => ?_, fun hne => ?_⟩, fun hun => ?_⟩
  · simp only [route, hm]
    rw [if_pos hcond, if_pos heq]
    exact ⟨rfl, rfl⟩
  · simp only [route, hm]
    rw [if_pos hcond, if_neg hne]
    exact ⟨rfl, rfl⟩
  · simp only [route, hun]
    rw [if_pos hcond]
    exact ⟨rfl, rfl⟩

/-- C1 witness: a 0x50 frame with embedded address `[9, 9, 9]` matching
the pending request is delivered to the answer queue only. -/
theorem C1_direct_frame_routing_witness :
    (route stC1).recvQ = [dC1] ∧ (route stC1).asyncQ = [] := by
  have h := ((C1_direct_frame_routing stC1 0x50 rfl (Or.inl rfl)).1 mC1 rfl).1 (by decide)
  simpa [stC1, initState] using h

/-- C2 counterexample: a completed non-direct frame (type 0x60) arriving
while no pending request is outstanding is not discarded; the receive loop
puts it on the answer queue and the failing `del(sp)` cleanup then puts
the same frame on the async queue as well — it is delivered to both. -/
theorem C2_counterexample_double_delivery :
    (runBytes initState dC2).recvQ = [dC2] ∧ (runBytes initState dC2).asyncQ = [dC2] := by
  decide

/-- C2 (amended): a completed direct-type frame is delivered to exactly
one of the two queues, and a non-direct frame with a pending request bound
is delivered only to the answer queue; but a non-direct frame completing
while no pending request is bound is delivered to both the answer queue
and the async queue, not discarded. -/
theorem C2_route_exclusivity (st : RxState) (t : ℕ) (ht : st.data.get? 1 = some t) :
    ((t = 0x50 ∨ t = 0x51) →
      ((route st).recvQ = st.recvQ ++ [st.data] ∧ (route st).asyncQ = st.asyncQ) ∨
      ((route st).asyncQ = st.asyncQ ++ [st.data] ∧ (route st).recvQ = st.recvQ)) ∧
    (¬ (t = 0x50 ∨ t = 0x51) →
      (st.sp ≠ SpSlot.unbound →
        (route st).recvQ = st.recvQ ++ [st.data] ∧ (route st).asyncQ = st.asyncQ) ∧
      (st.sp = SpSlot.unbound →
        (route st).recvQ = st.recvQ ++ [st.data] ∧
        (route st).asyncQ = st.asyncQ ++ [st.data])) := by
  constructor
  · intro hdir
    have hcond : st.data.get? 1 = some 0x50 ∨ st.data.get? 1 = some 0x51 := by
      rcases hdir with rfl | rfl
      · exact Or.inl ht
      · exact Or.inr ht
    cases hsp : st.sp with
    | unbound =>
      right
      simp only [route, hsp]
      rw [if_pos hcond]
      exact ⟨rfl, rfl⟩
    | bound m =>
      cases m with
      | none =>
        right
        simp only [route, hsp]
        rw [if_pos hcond]
        exact ⟨rfl, rfl⟩
      | some mm =>
        by_cases heq : (mm.drop 2).take 3 = (st.data.drop 2).take 3
        · left
          simp only [route, hsp]
          rw [if_pos hcond, if_pos heq]
          exact ⟨rfl, rfl⟩
        · right
          simp only [route, hsp]
          rw [if_pos hcond, if_neg heq]
          exact ⟨rfl, rfl⟩
  · intro hndir
    have hcond : ¬ (st.data.get? 1 = some 0x50 ∨ st.data.get? 1 = some 0x51) := by
      rw [ht]
      intro hc
      rcases hc with hc | hc <;> injection hc with hc
      · exact hndir (Or.inl hc)
      · exact hndir (Or.inr hc)
    refine ⟨fun hsp => ?_, fun hsp => ?_⟩
    · cases hsp2 : st.sp with
      | unbound => exact absurd hsp2 hsp
      | bound m =>
        simp only [route, hsp2]
        rw [if_neg hcond]
        exact ⟨rfl, rfl⟩
    · simp only [route, hsp]
      rw [if_neg hcond]
      exact ⟨rfl, rfl⟩

/-- C2 witness: a non-direct frame with a pending request bound goes only
to the answer queue. -/
theorem C2_route_exclusivity_witness :
    (route stC2).recvQ = [dC2] ∧ (route stC2).asyncQ = [] := by
  have h := ((C2_route_exclusivity stC2 0x60 rfl).2 (by decide)).1 (by decide)
  simpa [stC2, initState] using h

set_option maxHeartbeats 2000000 in
/-- C3: for every supported frame type, a byte stream of N stray bytes
(none equal to the 0x02 start marker) followed by one well-formed frame of
that type reassembles to exactly one complete frame of exactly the length
the type byte dictates (type 0x62 takes 23 when the flags byte at frame
offset 5 has bit 0x10 set, else 9); the stray bytes are logged as extra
bytes and are never merged into the frame. -/
theorem C3_reassembler_frames (strays body : List ℕ) (t L0 L : ℕ)
    (hstray : ∀ b ∈ strays, b ≠ 2)
    (hsupp : response_len t = some L0)
    (hL : L = if t = 0x62 then (if (body.get? 3).getD 0 &&& 0x10 ≠ 0 then 23 else 9) else L0)
    (hlen : body.length + 2 = L) :
    (runBytes initState (strays ++ 2 :: t :: body)).frames = [2 :: t :: body] ∧
    (runBytes initState (strays ++ 2 :: t :: body)).extraLogs =
      (if strays.isEmpty then [] else [strays]) ∧
    (runBytes initState (strays ++ 2 :: t :: body)).data = [] := by
  rw [runBytes_append,
      runBytes_strays strays initState hstray rfl (by decide)]
  by_cases hs : strays.isEmpty
  · rw [if_pos hs, if_pos hs]
    have h02 : step initState 2 = { initState with firstTimeout := false, data := [2] } := by
      rfl
    have e0 : runBytes initState (2 :: t :: body)
        = runBytes (step initState 2) (t :: body) := rfl
    rw [e0, h02, runBytes_after_start _ t L0 L body rfl hsupp hL hlen,
        route_frames, route_extraLogs, route_data]
    exact ⟨rfl, rfl, rfl⟩
  · rw [if_neg hs, if_neg hs]
    have h02 : step
        ({ initState with
            firstTimeout := false, data := [], extraFlag := true,
            extraBytes := initState.extraBytes ++ strays }) 2
        = { initState with
            firstTimeout := false, data := [2],
            extraLogs := [initState.extraBytes ++ strays] } := by
      unfold step stepLen stepStart
      simp [initState]
    have e0 : runBytes
        ({ initState with
            firstTimeout := false, data := [], extraFlag := true,
            extraBytes := initState.extraBytes ++ strays }) (2 :: t :: body)
        = runBytes
          (step
            ({ initState with
                firstTimeout := false, data := [], extraFlag := true,
                extraBytes := initState.extraBytes ++ strays }) 2) (t :: body) := rfl
    rw [e0, h02, runBytes_after_start _ t L0 L body rfl hsupp hL hlen,
        route_frames, route_extraLogs, route_data]
    refine ⟨rfl, ?_, rfl⟩
    simp [initState]

/-- C3 witness: two stray bytes followed by a 9-byte type 0x60 frame
reassemble to that single frame, with the strays logged. -/
theorem C3_reassembler_frames_witness :
    (runBytes initState ([7, 8] ++ 2 :: 0x60 :: [0, 0, 0, 0, 0, 0, 0])).frames
      = [2 :: 0x60 :: [0, 0, 0, 0, 0, 0, 0]] ∧
    (runBytes initState ([7, 8] ++ 2 :: 0x60 :: [0, 0, 0, 0, 0, 0, 0])).extraLogs
      = (if ([7, 8] : List ℕ).isEmpty then [] else [[7, 8]]) ∧
    (runBytes initState ([7, 8] ++ 2 :: 0x60 :: [0, 0, 0, 0, 0, 0, 0])).data = [] :=
  C3_reassembler_frames [7, 8] [0, 0, 0, 0, 0, 0, 0] 0x60 9 9
    (by decide) (by decide) (by decide) (by decide)

theorem pollTries_none (fuel t : ℕ) (hf : 50 ≤ t + fuel) (ht : t ≤ 50) :
    pollTries none fuel t = 50 := by
  induction fuel generalizing t with
  | zero =>
    have h50 : t = 50 := by omega
    simp [pollTries, h50]
  | succ n ih =>
    unfold pollTries
    by_cases h50 : 50 ≤ t
    · have ht50 : t = 50 := by omega
      subst ht50
      simp [rxVisible]
    · simp only [rxVisible, Bool.false_or, decide_eq_true_eq, h50, decide_False,
        Bool.false_eq_true, if_false]
      exact ih (t + 1) (by omega) (by omega)

theorem pollTries_some (j : ℕ) (fuel : ℕ) : ∀ (t : ℕ),
    min j 50 ≤ t + fuel → t ≤ min j 50 →
    pollTries (some j) fuel t = min j 50 := by
  induction fuel with
  | zero =>
    intro t hf ht
    have heq : t = min j 50 := by omega
    simp [pollTries, heq]
  | succ n ih =>
    intro t hf ht
    unfold pollTries
    rcases Nat.lt_or_ge t (min j 50) with hlt | hge
    · have h1 : ¬ j ≤ t := by omega
      have h2 : ¬ 50 ≤ t := by omega
      simp only [rxVisible, h1, h2, decide_False, Bool.or_self, Bool.false_eq_true, if_false]
      exact ih (t + 1) (by omega) (by omega)
    · have heq : t = min j 50 := by omega
      have hstop : j ≤ t ∨ 50 ≤ t := by omega
      rcases hstop with hj | h5
      · simp only [rxVisible, hj, decide_True, Bool.true_or, if_true]
        omega
      · simp only [rxVisible, h5, decide_True, Bool.or_true, if_true]
        omega

theorem echoMismatchResets_eq (k : Option ℕ) :
    echoMismatchResets k = if k = some 50 then 2 else 1 := by
  cases k with
  | none =>
    have hp := pollTries_none 51 0 (by omega) (by omega)
    simp [echoMismatchResets, hp, rxVisible]
  | some j =>
    have hp := pollTries_some j 51 0 (by omega) (by omega)
    simp only [echoMismatchResets, hp]
    by_cases hj : j = 50
    · subst hj
      simp [rxVisible]
    · rcases Nat.lt_or_ge j 50 with hlt | hge
      · have hmin : min j 50 = j := by omega
        rw [hmin]
        have h1 : rxVisible (some j) j = true := by simp [rxVisible]
        simp [h1, hj, Option.some.injEq]
      · have hmin : min j 50 = 50 := by omega
        rw [hmin]
        have h1 : rxVisible (some j) 50 = false := by
          simp only [rxVisible, decide_eq_false_iff_not]
          omega
        simp [h1, hj, Option.some.injEq]

theorem take_ne_of_get?_ne (xs ys : List ℕ) (i : ℕ) (hi : i < ys.length)
    (hne : xs.get? i ≠ ys.get? i) : xs.take ys.length ≠ ys := by
  intro h
  apply hne
  have h2 := congrArg (fun l => l.get? i) h
  simpa [List.getElem?_take_of_lt hi] using h2

/-- Transmitted message for the C4 scenarios. -/
def msgC4 : List ℕ := [2, 0x62, 9, 9, 9, 15, 0x11, 0]

/-- Echo frame differing from `msgC4` in the single byte at offset 4. -/
def echoC4 : List ℕ := [2, 0x62, 9, 9, 8, 15, 0x11, 0, 6]

/-- C4 counterexample: if the receiver thread's own reset becomes visible
only after the 50th polling sleep, the mismatch episode increments the
reset counter twice (the receiver's reset plus send_msg's own), not
exactly once, while still returning 'Invalid echo'. -/
theorem C4_counterexample_double_reset :
    send_msg true msgC4 11 false (some echoC4) (some 50) none 0
        = (PyVal.str ("Invalid echo"), 2) ∧ (2 : ℕ) ≠ 1 := by
  decide

/-- C4 (amended): an echo differing from the transmitted bytes in a single
position makes send_msg return 'Invalid echo' and increments the reset
counter exactly once — except in the boundary interleaving where the
receiver thread's reset lands exactly after the 50th polling sleep, in
which case it is incremented twice. -/
theorem C4_echo_mismatch (message e : List ℕ) (rlen : ℕ) (k : Option ℕ)
    (respM : Option (List ℕ)) (resets : ℕ)
    (hdiff : ∃ i, i < message.length ∧ e.get? i ≠ message.get? i) :
    send_msg true message rlen false (some e) k respM resets
      = (PyVal.str ("Invalid echo"), resets + (if k = some 50 then 2 else 1)) := by
  obtain ⟨i, hi, hne⟩ := hdiff
  have htake : e.take message.length ≠ message := take_ne_of_get?_ne e message i hi hne
  unfold send_msg
  simp [htake, echoMismatchResets_eq]

/-- C4 witness: the single-byte mismatch with no receiver reset during the
poll returns 'Invalid echo' with the counter incremented exactly once. -/
theorem C4_echo_mismatch_witness :
    send_msg true msgC4 11 false (some echoC4) none none 0
      = (PyVal.str ("Invalid echo"), 1) := by
  have h := C4_echo_mismatch msgC4 echoC4 11 none none 0 ⟨4, by decide, by decide⟩
  simpa using h

/-- C5 counterexample: an identification request (cmd1 = 0x10) sent with
broadcast flag bits set computes expected response length 0, not 22 — the
broadcast branch is checked first. -/
theorem C5_counterexample_idreq_broadcast :
    (sendStdMessage [1, 2, 3] 0x10 0 0xC0).2 = 0 ∧
    (sendStdMessage [1, 2, 3] 0x10 0 0xC0).2 ≠ 22 := by
  decide

/-- C5 (amended): sendStdMessage computes expected response length 0
whenever any broadcast flag bit (0xC0) is set; otherwise 22 for the
identification request (cmd1 = 0x10) and 11 in all remaining cases. -/
theorem C5_std_response_length (address : List ℕ) (cmd1 cmd2 flags : ℕ) :
    (flags &&& 0xC0 ≠ 0 → (sendStdMessage address cmd1 cmd2 flags).2 = 0) ∧
    (flags &&& 0xC0 = 0 → cmd1 = 0x10 → (sendStdMessage address cmd1 cmd2 flags).2 = 22) ∧
    (flags &&& 0xC0 = 0 → cmd1 ≠ 0x10 → (sendStdMessage address cmd1 cmd2 flags).2 = 11) := by
  refine ⟨fun hb => ?_, fun hb hc => ?_, fun hb hc => ?_⟩
  · simp [sendStdMessage, stdResponseLen, hb]
  · simp [sendStdMessage, stdResponseLen, hb, hc]
  · simp [sendStdMessage, stdResponseLen, hb, hc]

/-- C5 witness: the three response-length cases at concrete inputs. -/
theorem C5_std_response_length_witness :
    (sendStdMessage [1, 2, 3] 0x10 0 0xCF).2 = 0 ∧
    (sendStdMessage [1, 2, 3] 0x10 0 0x0F).2 = 22 ∧
    (sendStdMessage [1, 2, 3] 0x11 0 0x0F).2 = 11 :=
  ⟨(C5_std_response_length [1, 2, 3] 0x10 0 0xCF).1 (by decide),
   (C5_std_response_length [1, 2, 3] 0x10 0 0x0F).2.1 (by decide) rfl,
   (C5_std_response_length [1, 2, 3] 0x11 0 0x0F).2.2 (by decide) (by decide)⟩

/-- C6 counterexample: setLevel at percent level 50 computes the direct
level int(round(2.55*50)) = 127 under IEEE-754 double arithmetic, not 128:
2.55*50 evaluates to just below 127.5 and Python's round goes down. -/
theorem C6_counterexample_level127 :
    levelOfPercent 50 ≠ 128 ∧ levelOfPercent 50 = 127 := by
  decide

/-- C6 (amended): setLevel with percent level 50 computes direct level
127, sends a standard ON command (0x11) with payload byte 127, and on the
success path (response whose last byte equals 127) returns "OK" and writes
level 127 to the device registry. -/
theorem C6_setLevel_50 (address : List ℕ) :
    levelOfPercent 50 = 127 ∧
    (sendStdMessage address 0x11 127 0x0F).1 = [2, 0x62] ++ address ++ [0x0F, 0x11, 127] ∧
    setLevel 50 true true (PyVal.lst [2, 0x50, 0, 0, 0, 0, 0, 0, 0x20, 0x11, 127])
      = (PyVal.str ("OK"), some (0x11, 127), some 127) := by
  refine ⟨by decide, ?_, by decide⟩
  have hf : (0x0F : ℕ) &&& 0xEF = 0x0F := by decide
  simp [sendStdMessage, hf]

theorem linkLoop_records (z : List ℕ) (hz : z.get? 16 = some 0) :
    ∀ (rs : List (List ℕ)) (prev : Option (List ℕ)),
      (∀ r ∈ rs, r.get? 16 ≠ none ∧ r.get? 16 ≠ some 0) →
      linkLoop false (rs ++ [z]) prev = some (rs.map linkSlice) := by
  intro rs
  induction rs with
  | nil =>
    intro prev hr
    simp only [List.nil_append, linkLoop, hz, List.map_nil]
  | cons r rest ih =>
    intro prev hr
    obtain ⟨h1, h2⟩ := hr r (by simp)
    rcases hg : r.get? 16 with _ | n
    · exact absurd hg h1
    · rcases n with _ | nn
      · exact absurd hg h2
      · simp only [List.cons_append, linkLoop, hg, List.append_eq]
        rw [ih (some r) (fun x hx => hr x (by simp [hx]))]
        simp

/-- C7: a bulk link-table read receiving N extended frames with a nonzero
flag byte at offset 16 and then one zero-flag frame returns exactly the N
8-byte records (bytes 16..23 of each frame) in arrival order; a read for a
single record index stops after the first record. -/
theorem C7_bulk_link_read (rs : List (List ℕ)) (z : List ℕ)
    (hr : ∀ r ∈ rs, r.get? 16 ≠ none ∧ r.get? 16 ≠ some 0)
    (hz : z.get? 16 = some 0) :
    getLinkTable none (rs ++ [z]) = some (rs.map linkSlice) ∧
    (∀ (recn : ℕ) (d : List ℕ) (rest : List (List ℕ)),
      d.get? 16 ≠ none → d.get? 16 ≠ some 0 →
      getLinkTable (some recn) (d :: rest) = some [linkSlice d]) := by
  constructor
  · exact linkLoop_records z hz rs none hr
  · intro recn d rest h1 h2
    rcases hg : d.get? 16 with _ | n
    · exact absurd hg h1
    · rcases n with _ | nn
      · exact absurd hg h2
      · simp only [getLinkTable, linkLoop, hg]
        simp

/-- First synthetic link record frame (flag byte 0xE2 at offset 16). -/
def lnk1 : List ℕ :=
  [2, 0x51, 1, 1, 1, 2, 2, 2, 0x10, 0x2F, 0, 0, 0, 0, 0, 0,
   0xE2, 1, 3, 3, 3, 255, 28, 0, 0]

/-- Second synthetic link record frame (flag byte 0xA2 at offset 16). -/
def lnk2 : List ℕ :=
  [2, 0x51, 1, 1, 1, 2, 2, 2, 0x10, 0x2F, 0, 0, 0, 0, 0, 0,
   0xA2, 2, 4, 4, 4, 255, 28, 1, 0]

/-- Terminating frame with a zero flag byte at offset 16. -/
def lnkZ : List ℕ :=
  [2, 0x51, 1, 1, 1, 2, 2, 2, 0x10, 0x2F, 0, 0, 0, 0, 0, 0,
   0, 0, 0, 0, 0, 0, 0, 0, 0]

/-- C7 witness: two records and a terminator give exactly the two 8-byte
records in order; a single-record request stops after the first. -/
theorem C7_bulk_link_read_witness :
    getLinkTable none [lnk1, lnk2, lnkZ] = some [linkSlice lnk1, linkSlice lnk2] ∧
    getLinkTable (some 0) [lnk1, lnk2, lnkZ] = some [linkSlice lnk1] := by
  constructor
  · exact (C7_bulk_link_read [lnk1, lnk2] lnkZ (by decide) (by decide)).1
  · exact (C7_bulk_link_read [lnk1, lnk2] lnkZ (by decide) (by decide)).2 0 lnk1
      [lnk2, lnkZ] (by decide) (by decide)

/-- Non-cleanup frame (flags byte 0x0F, upper nibble 0x00). -/
def frameC8 : List ℕ := [2, 0x50, 1, 1, 1, 2, 2, 2, 0x0F, 0x11, 0]

/-- C8 counterexample: an unfiltered listener's callback fires for a frame
whose flags upper nibble is not 0xC0 — the group-cleanup gate is applied
only on the filtered path. -/
theorem C8_counterexample_unfiltered_listener :
    callbackFires none frameC8 = true ∧
    ((frameC8.get? 8).getD 0) &&& 0xF0 ≠ 0xC0 := by
  decide

/-- C8 (amended): a filtered listener's callback fires only when the
frame's flags upper nibble equals the group-cleanup category 0xC0, but an
unfiltered listener's callback fires for every dequeued frame regardless
of its flags. -/
theorem C8_listener_flags_gate (ev : LEvent) (data : List ℕ) :
    (callbackFires (some ev) data = true → ((data.get? 8).getD 0) &&& 0xF0 = 0xC0) ∧
    callbackFires none data = true := by
  constructor
  · intro h
    unfold callbackFires at h
    simp only [Bool.and_eq_true, beq_iff_eq] at h
    exact h.2
  · rfl

/-- All-pass filter event (every filter field is None). -/
def evC8 : LEvent := mkLightingEvent EvType.trigger 0

/-- Group-cleanup frame (flags byte 0xC6). -/
def frameC8b : List ℕ := [2, 0x50, 1, 1, 1, 2, 2, 2, 0xC6, 0x11, 1]

/-- C8 witness: a filtered listener that fires implies the frame's flags
upper nibble is 0xC0. -/
theorem C8_listener_flags_gate_witness :
    ((frameC8b.get? 8).getD 0) &&& 0xF0 = 0xC0 :=
  (C8_listener_flags_gate evC8 frameC8b).1 (by decide)

/-- The interval event with count 3 built by addIntervalEvent for a
'toggle' action. -/
def evInterval3 (i : ℤ) (address : List ℕ) : LEvent :=
  { etype := EvType.interval, interval := i, remaining := Remaining.num 3,
    action := some (PyVal.str ("toggle")), from_address := none, from_button := none,
    from_cmd := none, to_address := some address, to_button := none, level := none }

/-- C9: an interval event created with count 3 fires exactly three times
and never a fourth (no further timer is armed after the third firing,
whatever fuel remains), and a daily event re-arms for 86400 seconds
measured from the current firing — the arm happens before the action is
invoked. -/
theorem C9_interval_and_daily (i t0 : ℤ) (address : List ℕ) (fuel : ℕ) (hi : 0 < i) :
    (∀ ev delay, addIntervalEvent i (PyVal.str ("toggle")) address (Remaining.num 3)
        = (("OK"), some (delay, ev)) →
      delay = i ∧
      fireTimes (fuel + 3) (some (t0 + delay, ev)) = [t0 + i, t0 + 2 * i, t0 + 3 * i]) ∧
    (∀ (now : ℤ) (ev : LEvent), ev.etype = EvType.daily → ev.remaining = Remaining.infMark →
      timer_handler now ev =
        ([TimerOp.arm (now + 86400), TimerOp.invoke],
         some (now + 86400, { ev with remaining := Remaining.infMark, interval := 86400 }))) := by
  constructor
  · intro ev delay heq
    have hadd : addIntervalEvent i (PyVal.str ("toggle")) address (Remaining.num 3)
        = (("OK"), some (i, evInterval3 i address)) := by
      unfold addIntervalEvent
      rw [if_neg (by decide), if_neg (by omega)]
      rfl
    rw [hadd] at heq
    simp only [Prod.mk.injEq, Option.some.injEq] at heq
    obtain ⟨hdel, hev⟩ := heq.2
    subst hdel
    subst hev
    refine ⟨rfl, ?_⟩
    have e2 : t0 + i + i = t0 + 2 * i := by ring
    simp [fireTimes, timer_handler, decRemaining, evInterval3, e2]
    omega
  · intro now ev hty hrem
    unfold timer_handler
    rw [hty, hrem]
    norm_num [decRemaining]
    decide

/-- C9 witness: the concrete count-3 interval event armed at time 5 with
interval 5 fires at 5, 10 and 15 only. -/
theorem C9_interval_and_daily_witness :
    fireTimes 3 (some ((0 : ℤ) + 5, evInterval3 5 [1, 2, 3]))
      = [0 + 5, 0 + 2 * 5, 0 + 3 * 5] :=
  ((C9_interval_and_daily 5 0 [1, 2, 3] 0 (by decide)).1 (evInterval3 5 [1, 2, 3]) 5
    (by decide)).2

/-- C10 (code bug): addDailyEvent with action_time 'sunrise' or 'sunset'
raises an uncaught UnboundLocalError instead of returning a status string:
those branches assign only the placeholder `seconds = 4` and never the
local `interval` that `LightingEvent('daily', interval)` reads.  A
well-formed 'HH:MM:SS' time still returns "OK". -/
theorem C10_sunrise_uncaught_fault :
    addDailyEvent ActionTime.sunrise 0 [1, 2, 3] (PyVal.str ("toggle"))
        = Except.error ("UnboundLocalError: interval") ∧
    addDailyEvent ActionTime.sunset 0 [1, 2, 3] (PyVal.str ("toggle"))
        = Except.error ("UnboundLocalError: interval") ∧
    addDailyEvent (ActionTime.hms 1 0 0) 0 [1, 2, 3] (PyVal.str ("toggle"))
        = Except.ok (("OK"),
            some (3600, dailyEventOfAction (PyVal.str ("toggle")) [1, 2, 3] 3600)) := by
  refine ⟨rfl, rfl, rfl⟩
